import Mathlib

/-!
Verification of the cache-key derivation and cache session control logic of a
CI setup action. The embedding below translates the two JavaScript sources,
`src/main.js` (restore phase) and `src/post.js` (save phase), into Lean:
pure string manipulation is translated directly, the artifact store and the
file reader are modelled as explicit outcome parameters (`Except` values),
and the JavaScript try/catch construct is modelled by the `jsTryCatch`
combinator. Definitions are executable so that every theorem can be checked
on concrete inputs.
-/

/-! ## JavaScript string primitives -/

/-- The JavaScript expression `a || b` for strings: `a` when non-empty
(truthy), otherwise `b`. -/
def jsOr (a b : String) : String := if a = "" then b else a

/-- `Boolean.prototype.toString`: the strings written by
`cacheHit.toString()` in main.js line 160. -/
def boolString (b : Bool) : String := if b then "true" else "false"

/-- A JavaScript `try { body } catch (e) { handler }` where the body either
produces a value or throws: the handler consumes the thrown error. -/
def jsTryCatch {ε α : Type} (body : Except ε α) (handler : ε → α) : α :=
  match body with
  | Except.ok a => a
  | Except.error e => handler e

/-- Character-level splitting at the newline character, the semantics of the
JavaScript `s.split('\n')`: every occurrence of the separator starts a new
group, empty groups included. -/
def splitChars : List Char → List (List Char)
  | [] => [[]]
  | c :: cs =>
    match splitChars cs with
    | [] => [[c]]
    | g :: gs => if c = '\n' then [] :: g :: gs else (c :: g) :: gs

/-- Character-level interleaving with the newline character, the semantics
of the JavaScript `xs.join('\n')`. -/
def joinChars : List (List Char) → List Char
  | [] => []
  | [p] => p
  | p :: ps => p ++ '\n' :: joinChars ps

/-- The JavaScript `s.split('\n')` on strings. -/
def jsSplitNL (s : String) : List String := (splitChars s.data).map String.mk

/-- The JavaScript `xs.join('\n')` on strings. -/
def jsJoinNL (ss : List String) : String := String.mk (joinChars (ss.map String.data))

/-- The JavaScript `xs.filter(Boolean)` on an array of strings: keeps
exactly the non-empty (truthy) elements. -/
def jsFilterTruthy (ss : List String) : List String := ss.filter (fun t => t ≠ "")

/-- The JavaScript `s.substring(0, n)` for ASCII content: the first `n`
characters. -/
def strTake (s : String) (n : Nat) : String := String.mk (s.data.take n)

/-- Node `path.join(dir, file)` restricted to the shapes used here: a
directory path without trailing separator joined with a plain file name.
Normalisation of `.` segments is not modelled; concrete inputs in the
theorems below use absolute directories where `path.join` is plain
concatenation with a separator. -/
def pathJoin (a b : String) : String := a ++ "/" ++ b

/-! ## SHA-256 over byte lists

Translation of the digest computed by `crypto.createHash('sha256')` in
main.js: bytes are natural numbers below 256, 32-bit words are natural
numbers reduced modulo 2^32. -/

/-- Reduction to a 32-bit word. -/
def w32 (n : Nat) : Nat := n % 4294967296

/-- 32-bit modular addition. -/
def add32 (a b : Nat) : Nat := (a + b) % 4294967296

/-- 32-bit right rotation. -/
def rotr32 (x k : Nat) : Nat := w32 ((x >>> k) ||| (x <<< (32 - k)))

/-- 32-bit bitwise complement. -/
def not32 (x : Nat) : Nat := 4294967295 ^^^ x

/-- SHA-256 message-schedule function σ₀. -/
def sigma0 (x : Nat) : Nat := (rotr32 x 7) ^^^ (rotr32 x 18) ^^^ (x >>> 3)

/-- SHA-256 message-schedule function σ₁. -/
def sigma1 (x : Nat) : Nat := (rotr32 x 17) ^^^ (rotr32 x 19) ^^^ (x >>> 10)

/-- SHA-256 round function Σ₀. -/
def bigSigma0 (x : Nat) : Nat := (rotr32 x 2) ^^^ (rotr32 x 13) ^^^ (rotr32 x 22)

/-- SHA-256 round function Σ₁. -/
def bigSigma1 (x : Nat) : Nat := (rotr32 x 6) ^^^ (rotr32 x 11) ^^^ (rotr32 x 25)

/-- SHA-256 choice function. -/
def ch (x y z : Nat) : Nat := (x &&& y) ^^^ ((not32 x) &&& z)

/-- SHA-256 majority function. -/
def maj (x y z : Nat) : Nat := (x &&& y) ^^^ (x &&& z) ^^^ (y &&& z)

/-- The 64 SHA-256 round constants (FIPS 180-4), written in decimal. -/
def sha256K : List Nat :=
  [1116352408, 1899447441, 3049323471, 3921009573, 961987163,
   1508970993, 2453635748, 2870763221, 3624381080, 310598401,
   607225278, 1426881987, 1925078388, 2162078206, 2614888103,
   3248222580, 3835390401, 4022224774, 264347078, 604807628,
   770255983, 1249150122, 1555081692, 1996064986, 2554220882,
   2821834349, 2952996808, 3210313671, 3336571891, 3584528711,
   113926993, 338241895, 666307205, 773529912, 1294757372,
   1396182291, 1695183700, 1986661051, 2177026350, 2456956037,
   2730485921, 2820302411, 3259730800, 3345764771, 3516065817,
   3600352804, 4094571909, 275423344, 430227734, 506948616,
   659060556, 883997877, 958139571, 1322822218, 1537002063,
   1747873779, 1955562222, 2024104815, 2227730452, 2361852424,
   2428436474, 2756734187, 3204031479, 3329325298]

/-- The SHA-256 initial hash state (FIPS 180-4), written in decimal. -/
def sha256H0 : List Nat :=
  [1779033703, 3144134277, 1013904242, 2773480762,
   1359893119, 2600822924, 528734635, 1541459225]

/-- SHA-256 message padding: a 0x80 byte, zeros up to 56 modulo 64, and the
bit length as eight big-endian bytes. -/
def padBytes (msg : List Nat) : List Nat :=
  let bits := 8 * msg.length
  let zeros := (119 - msg.length % 64) % 64
  msg ++ 0x80 :: List.replicate zeros 0 ++
    ((List.range 8).map fun i => (bits >>> (8 * (7 - i))) % 256)

/-- Big-endian grouping of bytes into 32-bit words. -/
def bytesToWords : List Nat → List Nat
  | b0 :: b1 :: b2 :: b3 :: rest =>
      ((b0 <<< 24) ||| (b1 <<< 16) ||| (b2 <<< 8) ||| b3) :: bytesToWords rest
  | _ => []

/-- One extension step of the SHA-256 message schedule. -/
def scheduleStep (ws : List Nat) : List Nat :=
  let n := ws.length
  ws ++ [add32 (add32 (sigma1 (ws.getD (n - 2) 0)) (ws.getD (n - 7) 0))
               (add32 (sigma0 (ws.getD (n - 15) 0)) (ws.getD (n - 16) 0))]

/-- One SHA-256 compression round on the eight-word working state. -/
def sha256Round (st : List Nat) (kw : Nat × Nat) : List Nat :=
  match st with
  | [a, b, c, d, e, f, g, h] =>
      let t1 := add32 h (add32 (bigSigma1 e) (add32 (ch e f g) (add32 kw.1 kw.2)))
      let t2 := add32 (bigSigma0 a) (maj a b c)
      [add32 t1 t2, a, b, c, add32 d t1, e, f, g]
  | other => other

/-- SHA-256 compression of one 64-byte block into the hash state. -/
def sha256Compress (H : List Nat) (block : List Nat) : List Nat :=
  let ws := (List.range 48).foldl (fun acc _ => scheduleStep acc) (bytesToWords block)
  let st := (sha256K.zip ws).foldl sha256Round H
  List.zipWith add32 H st

/-- The SHA-256 digest of a byte list, as 32 bytes. -/
def sha256Digest (msg : List Nat) : List Nat :=
  let p := padBytes msg
  let finalH := (List.range (p.length / 64)).foldl
    (fun H i => sha256Compress H ((p.drop (64 * i)).take 64)) sha256H0
  (finalH.map fun w => [(w >>> 24) % 256, (w >>> 16) % 256, (w >>> 8) % 256, w % 256]).flatten

/-- Lowercase hexadecimal digit. -/
def hexDigit (n : Nat) : Char := if n < 10 then Char.ofNat (48 + n) else Char.ofNat (87 + n)

/-- The lowercase hexadecimal SHA-256 digest of a byte list, the value of
`createHash('sha256').update(content).digest('hex')`. -/
def sha256Hex (msg : List Nat) : String :=
  String.mk (((sha256Digest msg).map fun b => [hexDigit (b / 16), hexDigit (b % 16)]).flatten)

/-! ## UTF-8 decoding model

main.js reads the content file with `fs.readFileSync(filePath, 'utf8')` and
feeds the resulting JavaScript string back to the hash, which encodes it as
UTF-8 again. For well-formed UTF-8 input this round trip is the identity on
the raw bytes; ill-formed sequences are replaced by the replacement
character U+FFFD (bytes EF BF BD). `utf8Sanitize` models this
decode-reencode round trip: valid sequences are copied verbatim, and an
invalid lead byte is replaced and skipped (the replacement granularity for
multi-byte ill-formed fragments is approximated; all theorems below use it
only on well-formed input or on standalone invalid bytes, where it matches
the WHATWG decoder used by Node). -/

/-- Is the byte a UTF-8 continuation byte (10xxxxxx)? -/
def isCont (b : Nat) : Bool := 0x80 ≤ b && b ≤ 0xBF

/-- Admissible second byte of a three-byte sequence with lead `b1`
(excludes overlong encodings and surrogates). -/
def cont3 (b1 b2 : Nat) : Bool :=
  if b1 = 0xE0 then 0xA0 ≤ b2 && b2 ≤ 0xBF
  else if b1 = 0xED then 0x80 ≤ b2 && b2 ≤ 0x9F
  else isCont b2

/-- Admissible second byte of a four-byte sequence with lead `b1`
(excludes overlong encodings and code points above U+10FFFF). -/
def cont4 (b1 b2 : Nat) : Bool :=
  if b1 = 0xF0 then 0x90 ≤ b2 && b2 ≤ 0xBF
  else if b1 = 0xF4 then 0x80 ≤ b2 && b2 ≤ 0x8F
  else isCont b2

/-- The UTF-8 encoding of the replacement character U+FFFD. -/
def replBytes : List Nat := [0xEF, 0xBF, 0xBD]

/-- Length of the well-formed UTF-8 sequence starting at the head of the
byte list, or 0 when the head does not start one. -/
def seqLen : List Nat → Nat
  | [] => 0
  | b1 :: r1 =>
    if b1 ≤ 0x7F then 1
    else if 0xC2 ≤ b1 && b1 ≤ 0xDF then
      match r1 with
      | b2 :: _ => if isCont b2 then 2 else 0
      | _ => 0
    else if 0xE0 ≤ b1 && b1 ≤ 0xEF then
      match r1 with
      | b2 :: b3 :: _ => if cont3 b1 b2 && isCont b3 then 3 else 0
      | _ => 0
    else if 0xF0 ≤ b1 && b1 ≤ 0xF4 then
      match r1 with
      | b2 :: b3 :: b4 :: _ => if cont4 b1 b2 && isCont b3 && isCont b4 then 4 else 0
      | _ => 0
    else 0

/-- Fuel-indexed UTF-8 decode-reencode: copies well-formed sequences and
replaces an ill-formed lead byte with U+FFFD. The fuel always suffices when
it is at least the list length. -/
def sanitizeFuel : Nat → List Nat → List Nat
  | 0, _ => []
  | _ + 1, [] => []
  | fuel + 1, b :: r =>
    match seqLen (b :: r) with
    | 0 => replBytes ++ sanitizeFuel fuel r
    | n + 1 => (b :: r).take (n + 1) ++ sanitizeFuel fuel ((b :: r).drop (n + 1))

/-- Fuel-indexed well-formedness of a UTF-8 byte list. -/
def validFuel : Nat → List Nat → Bool
  | 0, bs => bs.isEmpty
  | _ + 1, [] => true
  | fuel + 1, b :: r =>
    match seqLen (b :: r) with
    | 0 => false
    | n + 1 => validFuel fuel ((b :: r).drop (n + 1))

/-- The UTF-8 decode-reencode round trip applied by the file read in
main.js line 11 followed by the hash update in line 12. -/
def utf8Sanitize (bs : List Nat) : List Nat := sanitizeFuel bs.length bs

/-- Well-formedness of a UTF-8 byte list. -/
def validUtf8 (bs : List Nat) : Bool := validFuel bs.length bs

/-! ## The embedded program -/

/-- main.js lines 9-17, `getFileHash`: the file read outcome is either the
raw bytes of the file or a thrown error. On success the bytes pass through
the UTF-8 decode-reencode round trip of the `utf8` read before being
hashed, and the first 8 hex characters of the digest are returned; any read
failure is caught and yields the sentinel `"missing"`. The function is
total: no outcome makes it propagate an error. -/
def getFileHash (readResult : Except String (List Nat)) : String :=
  jsTryCatch (readResult.map fun bytes => strTake (sha256Hex (utf8Sanitize bytes)) 8)
    (fun _ => "missing")

/-- main.js lines 19-26, `buildRestoreKeys`: the four key templates joined
with newlines. -/
def buildRestoreKeys (runneros goVersion jobName goSumHash : String) : String :=
  jsJoinNL
    ["golang-" ++ runneros ++ "-" ++ goVersion ++ "-" ++ jobName ++ "-" ++ goSumHash,
     "golang-" ++ runneros ++ "-" ++ goVersion ++ "-" ++ jobName,
     "golang-" ++ runneros ++ "-" ++ goVersion,
     "golang-" ++ runneros]

/-- main.js line 122: the primary cache key template. -/
def mkCacheKey (runneros goVersion jobName goSumHash : String) : String :=
  "golang-" ++ runneros ++ "-" ++ goVersion ++ "-" ++ jobName ++ "-" ++ goSumHash

/-- main.js line 140: `restoreKeys.split('\n').filter(Boolean)`. -/
def restoreKeysArray (restoreKeys : String) : List String :=
  jsFilterTruthy (jsSplitNL restoreKeys)

/-- The input names read through `core.getInput` in main.js (lines 31, 36,
37). -/
def mainInputsRead : List String := ["go-version-file", "working-directory", "job-name"]

/-- main.js lines 36 and 120: the path of the hashed content file as a
function of the action inputs (the input map returns the empty string for
an unset input). The file name `go.sum` is hard-coded at line 120. -/
def goSumPathOf (inputs : String → String) : String :=
  pathJoin (jsOr (inputs "working-directory") ".") "go.sum"

namespace Main

/-- Observable outcome of the cache step of the restore phase: the
`cacheHit` and `restoredKey` variables, the `core.saveState` writes in
order, and the `core.setOutput` writes in order. -/
structure RestoreResult where
  cacheHit : Bool
  restoredKey : Option String
  stateWrites : List (String × String)
  outputs : List (String × String)
deriving Repr, DecidableEq

/-- main.js lines 142-162, the cache step of `run`: the store restore
primitive either returns an optional matched key or throws. The try/catch
around the restore call leaves `cacheHit = false` and `restoredKey = null`
on a throw; afterwards the three state entries and the output are written
unconditionally. -/
def cacheStep (cacheKey : String) (cachePaths : List String)
    (restoreOutcome : Except String (Option String)) : RestoreResult :=
  let r := jsTryCatch (restoreOutcome.map fun k => (k == some cacheKey, k))
    (fun _ => (false, none))
  { cacheHit := r.1
    restoredKey := r.2
    stateWrites :=
      [("cache-key", cacheKey),
       ("cache-paths", jsJoinNL cachePaths),
       ("cache-hit", boolString r.1)]
    outputs := [("cache-hit", boolString r.1)] }

end Main

namespace Post

/-- Observable outcome of the save phase: the calls made to the store save
primitive in order (arguments: path list and key), whether the missing
state warning was logged, and whether the save failure warning was logged. -/
structure SaveResult where
  saveCalls : List (List String × String)
  warnNoState : Bool
  warnSaveFailed : Bool
deriving Repr, DecidableEq

/-- post.js lines 5-53, `run`: guards in source order — branch guard
(line 11), hit guard (line 20), state-integrity guard (line 29, JavaScript
falsiness of the empty string) — then the split of the persisted path
string (line 39) and the store save call wrapped in try/catch
(lines 38-47). The store save primitive is a parameter; its outcome is
either success or a thrown error, which the catch turns into a warning. -/
def run (ref hitState keyState pathsState : String)
    (store : List String → String → Except String Unit) : SaveResult :=
  if ref ≠ "refs/heads/master" then ⟨[], false, false⟩
  else if hitState = "true" then ⟨[], false, false⟩
  else if keyState = "" ∨ pathsState = "" then ⟨[], true, false⟩
  else
    let paths := jsFilterTruthy (jsSplitNL pathsState)
    jsTryCatch ((store paths keyState).map fun _ => SaveResult.mk [(paths, keyState)] false false)
      (fun _ => ⟨[(paths, keyState)], false, true⟩)

end Post

/-! ## Helper lemmas -/

/-- On a well-formed byte list the UTF-8 decode-reencode round trip is the
identity, for any fuel. -/
theorem sanitizeFuel_of_validFuel (fuel : Nat) :
    ∀ bs : List Nat, validFuel fuel bs = true → sanitizeFuel fuel bs = bs := by
  induction fuel with
  | zero =>
    intro bs h
    simp only [validFuel, List.isEmpty_iff] at h
    subst h
    rfl
  | succ n ih =>
    intro bs h
    cases bs with
    | nil => rfl
    | cons b r =>
      simp only [validFuel] at h
      simp only [sanitizeFuel]
      cases hs : seqLen (b :: r) with
      | zero => simp [hs] at h
      | succ m =>
        simp only [hs] at h ⊢
        rw [ih _ h, List.take_append_drop]

/-- On a well-formed byte list the UTF-8 decode-reencode round trip is the
identity. -/
theorem utf8Sanitize_of_valid (bs : List Nat) (h : validUtf8 bs = true) :
    utf8Sanitize bs = bs :=
  sanitizeFuel_of_validFuel bs.length bs h

/-- Splitting never produces the empty group list. -/
theorem splitChars_ne_nil (cs : List Char) : splitChars cs ≠ [] := by
  induction cs with
  | nil => simp [splitChars]
  | cons c cs ih =>
    simp only [splitChars]
    cases h : splitChars cs with
    | nil => simp
    | cons g gs => by_cases hc : c = '\n' <;> simp [hc]

/-- Splitting a list that starts with a separator-free part prepends that
part to the first group of the rest. -/
theorem splitChars_append (p rest : List Char) (hp : ('\n') ∉ p) :
    splitChars (p ++ rest) =
      (p ++ (splitChars rest).headD []) :: (splitChars rest).tail := by
  induction p with
  | nil =>
    cases h : splitChars rest with
    | nil => exact absurd h (splitChars_ne_nil rest)
    | cons g gs => simp [h]
  | cons c p ih =>
    have hc : ¬ c = '\n' := fun hEq => hp (by simp [hEq])
    have hp' : ('\n') ∉ p := fun hm => hp (List.mem_cons_of_mem _ hm)
    simp only [List.cons_append, splitChars, List.append_eq]
    rw [ih hp']
    simp [hc]

/-- Splitting is a left inverse of joining for a non-empty list of
separator-free parts. -/
theorem splitChars_joinChars (ps : List (List Char)) (hne : ps ≠ [])
    (h : ∀ p ∈ ps, ('\n') ∉ p) :
    splitChars (joinChars ps) = ps := by
  induction ps with
  | nil => exact absurd rfl hne
  | cons p ps ih =>
    cases ps with
    | nil =>
      have h1 := splitChars_append p [] (h p (by simp))
      simpa [joinChars, splitChars] using h1
    | cons q ps2 =>
      have h1 := splitChars_append p ('\n' :: joinChars (q :: ps2)) (h p (by simp))
      have h2 : splitChars ('\n' :: joinChars (q :: ps2)) =
          [] :: splitChars (joinChars (q :: ps2)) := by
        simp only [splitChars]
        cases hsp : splitChars (joinChars (q :: ps2)) with
        | nil => exact absurd hsp (splitChars_ne_nil _)
        | cons g gs => simp
      have h3 : splitChars (joinChars (q :: ps2)) = q :: ps2 :=
        ih (by simp) (fun x hx => h x (List.mem_cons_of_mem _ hx))
      simp only [joinChars]
      rw [h1, h2, h3]
      simp

/-- String-level split-join round trip for non-empty lists of
newline-free strings. -/
theorem jsSplit_join (ds : List String) (hne : ds ≠ [])
    (hd : ∀ d ∈ ds, ('\n') ∉ d.data) :
    jsSplitNL (jsJoinNL ds) = ds := by
  unfold jsSplitNL jsJoinNL
  rw [splitChars_joinChars (ds.map String.data) (by simpa using hne)
    (by intro p hp
        rcases List.mem_map.mp hp with ⟨d, hdm, rfl⟩
        exact hd d hdm)]
  rw [List.map_map, show String.mk ∘ String.data = id from funext fun s => rfl, List.map_id]

/-- The truthiness filter keeps a list of non-empty strings unchanged. -/
theorem jsFilterTruthy_eq_self (ds : List String) (hd : ∀ d ∈ ds, d ≠ "") :
    jsFilterTruthy ds = ds := by
  unfold jsFilterTruthy
  rw [List.filter_eq_self]
  intro a ha
  simpa using hd a ha

/-- Joining a list whose head is a non-empty string yields a non-empty
string. -/
theorem jsJoinNL_ne_empty (d : String) (ds : List String) (hd : d ≠ "") :
    jsJoinNL (d :: ds) ≠ "" := by
  cases ds with
  | nil => simpa [show jsJoinNL [d] = d from rfl] using hd
  | cons q qs =>
    intro hEq
    have h1 := congrArg String.data hEq
    simp [jsJoinNL, joinChars] at h1

/-! ## Claim theorems -/

/-- Claim C1: in the restore phase, `cacheHit` is true exactly when the
store restore primitive returned the primary cache key; a fallback match, a
restore that returns nothing, and a thrown restore all record
`cacheHit = false`. -/
theorem restore_cacheHit_iff_exact_primary (k : String) (ps : List String)
    (out : Except String (Option String)) :
    (Main.cacheStep k ps out).cacheHit = true ↔ out = Except.ok (some k) := by
  cases out with
  | ok r => simp [Main.cacheStep, jsTryCatch, Except.map, beq_iff_eq]
  | error e => simp [Main.cacheStep, jsTryCatch, Except.map]

/-- Claim C2: for the tuple os Linux, version 1.22.0, job build, hash
a1b2c3d4, the primary key is `golang-Linux-1.22.0-build-a1b2c3d4` and the
split restore-key array is exactly the four keys in decreasing specificity
with the primary key as element 0. -/
theorem derived_key_and_restore_list :
    mkCacheKey "Linux" "1.22.0" "build" "a1b2c3d4" = "golang-Linux-1.22.0-build-a1b2c3d4" ∧
    restoreKeysArray (buildRestoreKeys "Linux" "1.22.0" "build" "a1b2c3d4") =
      ["golang-Linux-1.22.0-build-a1b2c3d4", "golang-Linux-1.22.0-build",
       "golang-Linux-1.22.0", "golang-Linux"] ∧
    (restoreKeysArray (buildRestoreKeys "Linux" "1.22.0" "build" "a1b2c3d4")).headD "" =
      mkCacheKey "Linux" "1.22.0" "build" "a1b2c3d4" := by
  decide

/-- Claim C3: on the primary branch with persisted hit state false and
non-empty persisted key and path string, the save phase calls the store
save primitive exactly once, with the persisted key and with the persisted
newline-joined path string split back into its original ordered directory
list, whatever the store outcome. -/
theorem save_normal_calls_save_once (key : String) (dirs : List String)
    (store : List String → String → Except String Unit)
    (hkey : key ≠ "") (hne : dirs ≠ [])
    (hd : ∀ d ∈ dirs, d ≠ "" ∧ ('\n') ∉ d.data) :
    (Post.run "refs/heads/master" "false" key (jsJoinNL dirs) store).saveCalls =
      [(dirs, key)] := by
  have hjoin : jsJoinNL dirs ≠ "" := by
    cases dirs with
    | nil => exact absurd rfl hne
    | cons d ds => exact jsJoinNL_ne_empty d ds (hd d (by simp)).1
  have hsplit : jsFilterTruthy (jsSplitNL (jsJoinNL dirs)) = dirs := by
    rw [jsSplit_join dirs hne (fun d hdm => (hd d hdm).2)]
    exact jsFilterTruthy_eq_self dirs (fun d hdm => (hd d hdm).1)
  unfold Post.run
  rw [if_neg (by simp), if_neg (by decide),
    if_neg (by push_neg; exact ⟨hkey, hjoin⟩)]
  simp only [hsplit]
  cases hst : store dirs key with
  | ok u => simp [jsTryCatch, Except.map, hst]
  | error e => simp [jsTryCatch, Except.map, hst]

/-- Witness for C3 at the concrete key and path set written by the restore
phase. -/
theorem save_normal_calls_save_once_witness :
    (("golang-Linux-1.22.0-build-a1b2c3d4" : String) ≠ "" ∧
     (["/home/runner/.cache/go-build", "/home/runner/go/pkg/mod"] : List String) ≠ [] ∧
     (∀ d ∈ (["/home/runner/.cache/go-build", "/home/runner/go/pkg/mod"] : List String),
        d ≠ "" ∧ ('\n') ∉ d.data)) ∧
    (Post.run "refs/heads/master" "false" "golang-Linux-1.22.0-build-a1b2c3d4"
        (jsJoinNL ["/home/runner/.cache/go-build", "/home/runner/go/pkg/mod"])
        (fun _ _ => Except.ok ())).saveCalls =
      [(["/home/runner/.cache/go-build", "/home/runner/go/pkg/mod"],
        "golang-Linux-1.22.0-build-a1b2c3d4")] :=
  ⟨⟨by decide, by decide, by decide⟩,
   save_normal_calls_save_once _ _ _ (by decide) (by decide) (by decide)⟩

/-- Claim C4: when the current ref is not the primary branch, the save
phase never calls the store save primitive, whatever the persisted state
and store behaviour. -/
theorem save_skipped_off_primary_branch (ref hitState keyState pathsState : String)
    (store : List String → String → Except String Unit)
    (h : ref ≠ "refs/heads/master") :
    (Post.run ref hitState keyState pathsState store).saveCalls = [] := by
  unfold Post.run
  rw [if_pos h]

/-- Witness for C4 on a feature branch with populated state. -/
theorem save_skipped_off_primary_branch_witness :
    (("refs/heads/feature-x" : String) ≠ "refs/heads/master") ∧
    (Post.run "refs/heads/feature-x" "false" "golang-Linux" "/a"
        (fun _ _ => Except.ok ())).saveCalls = [] :=
  ⟨by decide,
   save_skipped_off_primary_branch _ _ _ _ _ (by decide)⟩

/-- Claim C5: on the primary branch with persisted hit state true, the
save phase never calls save and exits before the state-integrity guard:
even with empty persisted key and paths the result carries no missing-state
warning. -/
theorem save_skipped_on_cache_hit (keyState pathsState : String)
    (store : List String → String → Except String Unit) :
    Post.run "refs/heads/master" "true" keyState pathsState store = ⟨[], false, false⟩ := by
  unfold Post.run
  rw [if_neg (by simp), if_pos rfl]

/-- Claim C6 counterexample: for the readable one-byte file 0xFF the
computed hash is not the first 8 hex characters of the SHA-256 digest of
the raw bytes — the utf8 file read replaces the byte with U+FFFD before
hashing. -/
theorem contentHash_raw_bytes_counterexample :
    ¬ (getFileHash (Except.ok [0xFF]) = strTake (sha256Hex [0xFF]) 8) := by
  decide

/-- Claim C6 (amended): for every readable content file whose raw bytes
are well-formed UTF-8, the computed hash equals the first 8 hex characters
of the SHA-256 digest of the raw bytes (in general the digest is taken
over the UTF-8 decode-reencode of the content, which coincides with the
raw bytes exactly in the well-formed case). -/
theorem contentHash_raw_bytes_of_valid_utf8 (bytes : List Nat)
    (h : validUtf8 bytes = true) :
    getFileHash (Except.ok bytes) = strTake (sha256Hex bytes) 8 := by
  simp only [getFileHash, jsTryCatch, Except.map, utf8Sanitize_of_valid bytes h]

/-- Witness for the amended C6 on the ASCII bytes of `go!`. -/
theorem contentHash_raw_bytes_of_valid_utf8_witness :
    validUtf8 [0x67, 0x6F, 0x21] = true ∧
    getFileHash (Except.ok [0x67, 0x6F, 0x21]) = strTake (sha256Hex [0x67, 0x6F, 0x21]) 8 :=
  ⟨by decide, contentHash_raw_bytes_of_valid_utf8 _ (by decide)⟩

/-- Claim C7: the restore phase never reads the cache-dependency-path
input — the hashed file is `go.sum` under the working directory no matter
what the option holds. The first conjunct records the inputs actually
read, the second that the hashed path is invariant under any value of the
option, the third evaluates the hashed path at the failing input
(working-directory `/repo`, cache-dependency-path `deps/custom.lock`). -/
theorem cache_dependency_path_ignored :
    ("cache-dependency-path" ∉ mainInputsRead) ∧
    (∀ (inputs : String → String) (v : String),
      goSumPathOf (fun n => if n = "cache-dependency-path" then v else inputs n) =
        goSumPathOf inputs) ∧
    goSumPathOf (fun n =>
      if n = "working-directory" then "/repo"
      else if n = "cache-dependency-path" then "deps/custom.lock" else "") = "/repo/go.sum" := by
  refine ⟨by decide, fun inputs v => ?_, by decide⟩
  simp only [goSumPathOf]
  rw [if_neg (by decide)]

/-- Claim C8: every failing file read produces the sentinel `"missing"`;
`getFileHash` is a total function of the read outcome, so no reader
failure propagates to the caller. -/
theorem unreadable_file_hash_missing (e : String) :
    getFileHash (Except.error e) = "missing" := rfl

/-- Claim C9: a thrown store restore is caught inside the restore phase
and recorded as a full miss, and a thrown store save is caught inside the
save phase, which still returns an ordinary result recording the attempted
call and a warning; neither phase result can carry an escaped error. -/
theorem store_failure_never_raises (k : String) (ps : List String) (e1 : String)
    (keyState pathsState e2 : String) (hk : keyState ≠ "") (hp : pathsState ≠ "") :
    (Main.cacheStep k ps (Except.error e1)).cacheHit = false ∧
    (Main.cacheStep k ps (Except.error e1)).restoredKey = none ∧
    Post.run "refs/heads/master" "false" keyState pathsState (fun _ _ => Except.error e2) =
      ⟨[(jsFilterTruthy (jsSplitNL pathsState), keyState)], false, true⟩ := by
  refine ⟨rfl, rfl, ?_⟩
  unfold Post.run
  rw [if_neg (by simp), if_neg (by decide), if_neg (by push_neg; exact ⟨hk, hp⟩)]
  rfl

/-- Witness for C9 with a throwing restore and a throwing save on
populated state. -/
theorem store_failure_never_raises_witness :
    (("golang-Linux" : String) ≠ "" ∧ ("/a\n/b" : String) ≠ "") ∧
    (Main.cacheStep "k" [] (Except.error "network down")).cacheHit = false ∧
    (Main.cacheStep "k" [] (Except.error "network down")).restoredKey = none ∧
    Post.run "refs/heads/master" "false" "golang-Linux" "/a\n/b"
        (fun _ _ => Except.error "quota") =
      ⟨[(jsFilterTruthy (jsSplitNL "/a\n/b"), "golang-Linux")], false, true⟩ :=
  ⟨⟨by decide, by decide⟩,
   store_failure_never_raises "k" [] "network down" "golang-Linux" "/a\n/b" "quota"
     (by decide) (by decide)⟩

/-- Claim C10: whenever the restore phase reaches its cache step it writes
the three state entries cache-key, cache-paths and cache-hit in that
order, a thrown restore persists cache-hit as "false", and the job-visible
cache-hit output always equals the persisted cache-hit state value. -/
theorem restore_state_writes_total (k : String) (ps : List String)
    (out : Except String (Option String)) :
    ((Main.cacheStep k ps out).stateWrites.map Prod.fst =
      ["cache-key", "cache-paths", "cache-hit"]) ∧
    (∀ e : String,
      (Main.cacheStep k ps (Except.error e)).stateWrites.lookup "cache-hit" = some "false") ∧
    ((Main.cacheStep k ps out).outputs.lookup "cache-hit" =
      (Main.cacheStep k ps out).stateWrites.lookup "cache-hit") := by
  refine ⟨by simp [Main.cacheStep], fun e => rfl, ?_⟩
  cases out <;> rfl
